import Mathlib

/-!
Verification of the HDU (hardware depth unprojector) core, `src/hdu.c`.

The C code is embedded shallowly:
* C `float` calibration and position arithmetic is modelled over `ℚ`
  (the spec's formulas are exact field expressions);
* machine integers are modelled as `ℕ`/`ℤ`: a `uint8_t` load is `% 256`,
  a `uint16_t` load is `% 65536`, the C arithmetic right shift `>> 8` of a
  possibly negative `int` is floor division `Int.fdiv _ 256`, and the
  `uint8_t` store of an `int` is `(· % 256).toNat`;
* the caller-supplied buffers `depth->data` (16-bit samples) and
  `depth->colors` (a byte buffer holding the Y plane followed by the
  interleaved UV plane) are total functions from indices, `colors`
  optional as in the C (`NULL` pointer = `none`);
* the output point cloud is the list of emitted points, in emission
  order; `pc->used` is its length, and the capacity `pc->size` is the
  `pc_size` argument.  The doubly nested emission loop of
  `hdu_unproject` is embedded as nested folds with the loop guard
  `points < pc_size` kept verbatim.
All functions are pure, mirroring the `const` qualifiers of the C API:
`hdu_unproject` reads the `hdu` struct and the depth frame and produces
a fresh output, so no operation can mutate a constructed `hdu`.
-/

namespace HDU

/-- `CLIP(X)` macro of hdu.c: `(X) > 255 ? 255 : (X) < 0 ? 0 : X`. -/
def CLIP (x : ℤ) : ℤ := if x > 255 then 255 else if x < 0 then 0 else x

/-- `YUV2R(Y,U,V)` macro: `CLIP((298*(Y-16) + 409*(V-128) + 128) >> 8)`.
The `int` right shift by 8 is arithmetic, i.e. floor division by 256. -/
def YUV2R (y u v : ℤ) : ℤ :=
  CLIP (Int.fdiv (298 * (y - 16) + 409 * (v - 128) + 128) 256)

/-- `YUV2G(Y,U,V)` macro:
`CLIP((298*(Y-16) - 100*(U-128) - 208*(V-128) + 128) >> 8)`. -/
def YUV2G (y u v : ℤ) : ℤ :=
  CLIP (Int.fdiv (298 * (y - 16) - 100 * (u - 128) - 208 * (v - 128) + 128) 256)

/-- `YUV2B(Y,U,V)` macro: `CLIP((298*(Y-16) + 516*(U-128) + 128) >> 8)`. -/
def YUV2B (y u v : ℤ) : ℤ :=
  CLIP (Int.fdiv (298 * (y - 16) + 516 * (u - 128) + 128) 256)

/-- `static const uint16_t P010LE_MAX = 0xFFC0` — ten ones then six zeroes. -/
def P010LE_MAX : ℕ := 0xFFC0

/-- `struct hdu_config` (calibration input, field names from hdu.c usage). -/
structure hdu_config where
  ppx : ℚ
  ppy : ℚ
  fx : ℚ
  fy : ℚ
  depth_unit : ℚ
  min_margin : ℚ
  max_margin : ℚ
deriving DecidableEq

/-- `struct hdu` — the unprojector's immutable calibration state. -/
structure hdu where
  ppx : ℚ
  ppy : ℚ
  fx : ℚ
  fy : ℚ
  depth_unit : ℚ
  min_depth : ℚ
  max_depth : ℚ
deriving DecidableEq

/-- `hdu_init` field assignments (the embedding omits the `malloc` failure
path, which returns `NULL` and constructs nothing). -/
def hdu_init (c : hdu_config) : hdu :=
  { ppx := c.ppx
    ppy := c.ppy
    fx := c.fx
    fy := c.fy
    depth_unit := c.depth_unit
    min_depth := c.min_margin
    max_depth := (P010LE_MAX : ℚ) * c.depth_unit - c.max_margin }

/-- `struct hdu_depth`: a depth frame with an optional NV12-style color
buffer.  `data i` is the `i`-th 16-bit depth sample, `colors` (when
present) is the raw byte buffer holding the Y plane and then the UV
plane. -/
structure hdu_depth where
  width : ℕ
  height : ℕ
  depth_stride : ℕ
  color_stride : ℕ
  data : ℕ → ℕ
  colors : Option (ℕ → ℕ)

/-- One emitted point: a position row of `pc->data` and the matching
`pc->colors` entry. -/
structure hdu_point where
  x : ℚ
  y : ℚ
  z : ℚ
  color : ℕ
deriving DecidableEq, Inhabited

/-- The raw depth sample `depth->data[r * depth->depth_stride / 2 + c]`,
a `uint16_t` load (`r * depth_stride / 2` parses as `(r * depth_stride) / 2`
in C). -/
def depth_sample (depth : hdu_depth) (r c : ℕ) : ℕ :=
  depth.data (r * depth.depth_stride / 2 + c) % 65536

/-- The luma byte `colorY[r * depth->color_stride + c]` (a `uint8_t` load). -/
def color_Y (depth : hdu_depth) (buf : ℕ → ℕ) (r c : ℕ) : ℕ :=
  buf (r * depth.color_stride + c) % 256

/-- The chroma word `colorUV[(r/2) * (depth->color_stride/2) + (c/2)]`:
`colorUV` points `color_stride * height` bytes into the color buffer and is
read as a little-endian `uint16_t`, so element index `i` is the byte pair at
offsets `base + 2*i` (low byte) and `base + 2*i + 1` (high byte). -/
def color_UV (depth : hdu_depth) (buf : ℕ → ℕ) (r c : ℕ) : ℕ :=
  let base := depth.color_stride * depth.height +
    2 * (r / 2 * (depth.color_stride / 2) + c / 2)
  buf base % 256 + 256 * (buf (base + 1) % 256)

/-- `R = YUV2R(Y, UV >> 8, UV & 0xFF)` followed by the store into the
`uint8_t` variable `R`. -/
def pixel_R (depth : hdu_depth) (buf : ℕ → ℕ) (r c : ℕ) : ℕ :=
  ((YUV2R (color_Y depth buf r c : ℤ) ((color_UV depth buf r c >>> 8 : ℕ) : ℤ)
    ((color_UV depth buf r c &&& 0xFF : ℕ) : ℤ)) % 256).toNat

/-- `G = YUV2G(Y, UV >> 8, UV & 0xFF)` stored into a `uint8_t`. -/
def pixel_G (depth : hdu_depth) (buf : ℕ → ℕ) (r c : ℕ) : ℕ :=
  ((YUV2G (color_Y depth buf r c : ℤ) ((color_UV depth buf r c >>> 8 : ℕ) : ℤ)
    ((color_UV depth buf r c &&& 0xFF : ℕ) : ℤ)) % 256).toNat

/-- `B = YUV2B(Y, UV >> 8, UV & 0xFF)` stored into a `uint8_t`. -/
def pixel_B (depth : hdu_depth) (buf : ℕ → ℕ) (r c : ℕ) : ℕ :=
  ((YUV2B (color_Y depth buf r c : ℤ) ((color_UV depth buf r c >>> 8 : ℕ) : ℤ)
    ((color_UV depth buf r c &&& 0xFF : ℕ) : ℤ)) % 256).toNat

/-- `pc->colors[points] = (0xFF << 24) | (B << 16) | (G << 8) | R & 0xFF`
(`&` binds tighter than `|` in C). -/
def pack_color (depth : hdu_depth) (buf : ℕ → ℕ) (r c : ℕ) : ℕ :=
  (0xFF : ℕ) <<< 24 ||| pixel_B depth buf r c <<< 16 |||
    pixel_G depth buf r c <<< 8 ||| (pixel_R depth buf r c &&& 0xFF)

/-- `const color32 default_color = 0xFFFFFFFF` — opaque white. -/
def default_color : ℕ := 0xFFFFFFFF

/-- The body of the pixel loop of `hdu_unproject` at row `r`, column `c`:
the position written to `pc->data[points]` and the color written to
`pc->colors[points]`. -/
def unproject_point (h : hdu) (depth : hdu_depth) (r c : ℕ) : hdu_point :=
  let d : ℚ := (depth_sample depth r c : ℚ) * h.depth_unit
  { x := d * ((c : ℚ) - h.ppx) / h.fx
    y := -d * ((r : ℚ) - h.ppy) / h.fy
    z := d
    color :=
      match depth.colors with
      | none => default_color
      | some buf => pack_color depth buf r c }

/-- `hdu_unproject`: the doubly nested loop
`for(r = 0; r < height; ++r) for(c = 0; c < width && points < pc_size; ++c)`
emitting one point per visited pixel; the result list is the written prefix
of the point cloud and its length is the final `pc->used`. -/
def hdu_unproject (h : hdu) (depth : hdu_depth) (pc_size : ℕ) : List hdu_point :=
  (List.range depth.height).foldl (fun pts r =>
    (List.range depth.width).foldl (fun pts c =>
      if pts.length < pc_size then pts ++ [unproject_point h depth r c] else pts)
      pts) []

/-- The point the scan emits at raster index `k`, i.e. at pixel
`(k / width, k % width)`. -/
def raster_point (h : hdu) (depth : hdu_depth) (k : ℕ) : hdu_point :=
  unproject_point h depth (k / depth.width) (k % depth.width)

/-- Calibration of the spec's worked scenario: principal point `(0,0)`,
focal `(1,1)`, `depth_unit = 0.001`, zero margins. -/
def ex_config : hdu_config :=
  { ppx := 0, ppy := 0, fx := 1, fy := 1, depth_unit := 1/1000,
    min_margin := 0, max_margin := 0 }

/-- Same calibration with different margins (for the noninterference claim). -/
def ex_config2 : hdu_config :=
  { ppx := 0, ppy := 0, fx := 1, fy := 1, depth_unit := 1/1000,
    min_margin := 5, max_margin := 7 }

/-- The unprojector of the worked scenario. -/
def ex_h : hdu := hdu_init ex_config

/-- The scenario's 2x2 depth map, raw depths `[1000, 2000, 3000, 4000]`,
no color buffer. -/
def ex_depth : hdu_depth :=
  { width := 2, height := 2, depth_stride := 4, color_stride := 0,
    data := fun i => [1000, 2000, 3000, 4000].getD i 0, colors := none }

/-- A 2x2 depth map whose samples are all zero (no valid depth). -/
def ex_depth0 : hdu_depth :=
  { width := 2, height := 2, depth_stride := 4, color_stride := 0,
    data := fun _ => 0, colors := none }

/-- A color buffer for a 2x2 frame: Y plane `[128,128,128,128]`, then one
UV pair whose low byte is 0 and high byte is 255. -/
def ex_cbuf : ℕ → ℕ := fun i => [128, 128, 128, 128, 0, 255].getD i 0

/-- The 2x2 depth map paired with the color buffer `ex_cbuf`
(`color_stride = 2`). -/
def ex_cdepth : hdu_depth :=
  { width := 2, height := 2, depth_stride := 4, color_stride := 2,
    data := fun i => [1000, 2000, 3000, 4000].getD i 0, colors := some ex_cbuf }

/-- A fold of the guarded loop body over any column list appends the images
of the first `n - acc.length` elements: the `points < pc_size` guard, once
false, stays false because the accumulator only grows. -/
lemma foldl_guard_eq {α : Type} (n : ℕ) (f : α → hdu_point) :
    ∀ (l : List α) (acc : List hdu_point),
      l.foldl (fun pts x =>
        if pts.length < n then pts ++ [f x] else pts) acc
      = acc ++ (l.map f).take (n - acc.length) := by
  intro l
  induction l with
  | nil => intro acc; simp
  | cons x xs ih =>
    intro acc
    by_cases hlt : acc.length < n
    · have hn : n - acc.length = (n - (acc.length + 1)) + 1 := by omega
      simp only [List.foldl_cons, if_pos hlt, ih, List.length_append,
        List.length_cons, List.length_nil, Nat.zero_add, List.map_cons, hn,
        List.take_succ_cons, List.append_assoc, List.cons_append,
        List.nil_append]
    · have hn : n - acc.length = 0 := by omega
      simp only [List.foldl_cons, if_neg hlt, ih, List.map_cons, hn,
        List.take_zero, List.append_nil]

/-- Closed form of the scan over the first `m` rows: the raster-ordered
pixel points, truncated at the capacity `n`. -/
lemma scan_eq (h : hdu) (depth : hdu_depth) (n : ℕ) :
    ∀ m : ℕ,
      (List.range m).foldl (fun pts r =>
        (List.range depth.width).foldl (fun pts c =>
          if pts.length < n then pts ++ [unproject_point h depth r c] else pts)
          pts) []
      = ((List.range (m * depth.width)).map (raster_point h depth)).take n := by
  intro m
  induction m with
  | zero => simp
  | succ m ih =>
    rw [List.range_succ, List.foldl_append]
    simp only [List.foldl_cons, List.foldl_nil]
    rw [ih, foldl_guard_eq, Nat.add_mul, Nat.one_mul, List.range_add,
      List.map_append, List.take_append_eq_append_take]
    have hlen2 : n - (((List.range (m * depth.width)).map
          (raster_point h depth)).take n).length
        = n - ((List.range (m * depth.width)).map
          (raster_point h depth)).length := by
      rw [List.length_take]
      omega
    rw [hlen2]
    have hmap : ((List.range depth.width).map (fun x => m * depth.width + x)).map
          (raster_point h depth)
        = (List.range depth.width).map (unproject_point h depth m) := by
      rw [List.map_map]
      apply List.map_congr_left
      intro c hc
      have hcw : c < depth.width := List.mem_range.mp hc
      simp only [Function.comp_apply]
      unfold raster_point
      have h1 : (m * depth.width + c) / depth.width = m := by
        rw [Nat.mul_comm, Nat.mul_add_div (by omega)]
        simp [Nat.div_eq_of_lt hcw]
      have h2 : (m * depth.width + c) % depth.width = c := by
        rw [Nat.mul_comm, Nat.mul_add_mod]
        exact Nat.mod_eq_of_lt hcw
      rw [h1, h2]
    rw [hmap]

/-- `hdu_unproject` emits exactly the raster-ordered pixel points, truncated
at the capacity: once the guard trips, nothing further is emitted in the
whole remaining scan. -/
lemma hdu_unproject_eq (h : hdu) (depth : hdu_depth) (n : ℕ) :
    hdu_unproject h depth n
      = ((List.range (depth.height * depth.width)).map
          (raster_point h depth)).take n :=
  scan_eq h depth n depth.height

/-- The number of emitted points is `min (height * width) pc_size`,
independently of every sample value. -/
lemma hdu_unproject_length (h : hdu) (depth : hdu_depth) (n : ℕ) :
    (hdu_unproject h depth n).length = min (depth.height * depth.width) n := by
  rw [hdu_unproject_eq]
  simp [Nat.min_comm]

/-- The point at output index `k` is the unprojection of pixel
`(k / width, k % width)`. -/
lemma hdu_unproject_getD (h : hdu) (depth : hdu_depth) (n k : ℕ)
    (hk : k < min (depth.height * depth.width) n) :
    (hdu_unproject h depth n).getD k default = raster_point h depth k := by
  have hlen : k < (hdu_unproject h depth n).length := by
    rw [hdu_unproject_length]
    omega
  rw [List.getD_eq_getElem _ _ hlen]
  simp only [hdu_unproject_eq, List.getElem_take, List.getElem_map,
    List.getElem_range]

/-- Disjoint bitwise or is addition: a value shifted left past `k` bits
or-ed with a value below `2 ^ k`. -/
lemma shiftLeft_lor_eq_add {a b k : ℕ} (hb : b < 2 ^ k) :
    a <<< k ||| b = a * 2 ^ k + b := by
  apply Nat.eq_of_testBit_eq
  intro j
  rw [Nat.testBit_or, Nat.testBit_shiftLeft]
  rcases Nat.lt_or_ge j k with hj | hj
  · rw [decide_eq_false (by omega), Bool.false_and, Bool.false_or]
    have hmod : (a * 2 ^ k + b) % 2 ^ k = b := by
      rw [Nat.mul_comm, Nat.mul_add_mod]
      exact Nat.mod_eq_of_lt hb
    have htb := Nat.testBit_mod_two_pow (a * 2 ^ k + b) k j
    rw [hmod, decide_eq_true hj, Bool.true_and] at htb
    exact htb
  · rw [decide_eq_true hj, Bool.true_and]
    have hbj : b.testBit j = false :=
      Nat.testBit_lt_two_pow
        (lt_of_lt_of_le hb (Nat.pow_le_pow_right (by omega) hj))
    rw [hbj, Bool.or_false]
    have hdiv : (a * 2 ^ k + b) / 2 ^ j = a / 2 ^ (j - k) := by
      have hk : (2 : ℕ) ^ j = 2 ^ k * 2 ^ (j - k) := by
        rw [← pow_add]
        congr 1
        omega
      rw [hk, ← Nat.div_div_eq_div_mul]
      congr 1
      rw [Nat.add_comm, Nat.add_mul_div_right _ _ (Nat.two_pow_pos k),
        Nat.div_eq_of_lt hb, Nat.zero_add]
    rw [Nat.testBit_to_div_mod, Nat.testBit_to_div_mod, hdiv]

/-- CLIP saturates into the byte range. -/
lemma CLIP_range (x : ℤ) : 0 ≤ CLIP x ∧ CLIP x ≤ 255 := by
  unfold CLIP
  split_ifs <;> omega

/-- The stored R channel is a byte. -/
lemma pixel_R_lt (depth : hdu_depth) (buf : ℕ → ℕ) (r c : ℕ) :
    pixel_R depth buf r c < 256 := by
  unfold pixel_R
  omega

/-- The stored G channel is a byte. -/
lemma pixel_G_lt (depth : hdu_depth) (buf : ℕ → ℕ) (r c : ℕ) :
    pixel_G depth buf r c < 256 := by
  unfold pixel_G
  omega

/-- The stored B channel is a byte. -/
lemma pixel_B_lt (depth : hdu_depth) (buf : ℕ → ℕ) (r c : ℕ) :
    pixel_B depth buf r c < 256 := by
  unfold pixel_B
  omega

/-- Masking a byte with 0xFF is the identity. -/
lemma and_255_eq {x : ℕ} (hx : x < 256) : x &&& 0xFF = x := by
  have h8 : (0xFF : ℕ) = 2 ^ 8 - 1 := by norm_num
  rw [h8, Nat.and_pow_two_sub_one_eq_mod]
  exact Nat.mod_eq_of_lt (by omega)

/-- The packed color word in plain arithmetic: alpha, blue, green, red from
the most significant byte down. -/
lemma pack_color_eq (depth : hdu_depth) (buf : ℕ → ℕ) (r c : ℕ) :
    pack_color depth buf r c
      = 4278190080 + (pixel_B depth buf r c * 65536 +
          (pixel_G depth buf r c * 256 + pixel_R depth buf r c)) := by
  have hR := pixel_R_lt depth buf r c
  have hG := pixel_G_lt depth buf r c
  have hB := pixel_B_lt depth buf r c
  have hR8 : pixel_R depth buf r c < 2 ^ 8 := by omega
  have hGR : pixel_G depth buf r c * 2 ^ 8 + pixel_R depth buf r c < 2 ^ 16 := by
    omega
  have hBGR : pixel_B depth buf r c * 2 ^ 16 +
      (pixel_G depth buf r c * 2 ^ 8 + pixel_R depth buf r c) < 2 ^ 24 := by
    omega
  unfold pack_color
  rw [and_255_eq hR, Nat.or_assoc, Nat.or_assoc, shiftLeft_lor_eq_add hR8,
    shiftLeft_lor_eq_add hGR, shiftLeft_lor_eq_add hBGR]
  norm_num

/-- Claim C1: when no early termination occurs (`height * width ≤ capacity`),
the point at output index `k` corresponds to pixel
`(r, c) = (k / width, k % width)` and its position is
`x = d * (c - ppx) / fx`, `y = -d * (r - ppy) / fy`, `z = d`, where
`d = raw_sample * depth_unit` and the raw sample is the 16-bit value
`data[r * depth_stride / 2 + c]`, for every 16-bit raw value. -/
theorem C1_raster_position (h : hdu) (depth : hdu_depth) (n k : ℕ)
    (hterm : depth.height * depth.width ≤ n)
    (hk : k < depth.height * depth.width) :
    k < (hdu_unproject h depth n).length ∧
      ((hdu_unproject h depth n).getD k default).z
          = (depth_sample depth (k / depth.width) (k % depth.width) : ℚ)
              * h.depth_unit ∧
      ((hdu_unproject h depth n).getD k default).x
          = (depth_sample depth (k / depth.width) (k % depth.width) : ℚ)
              * h.depth_unit * (((k % depth.width : ℕ) : ℚ) - h.ppx) / h.fx ∧
      ((hdu_unproject h depth n).getD k default).y
          = -((depth_sample depth (k / depth.width) (k % depth.width) : ℚ)
              * h.depth_unit) * (((k / depth.width : ℕ) : ℚ) - h.ppy) / h.fy := by
  have hk' : k < min (depth.height * depth.width) n := by omega
  have hlen := hdu_unproject_length h depth n
  have hgd := hdu_unproject_getD h depth n k hk'
  refine ⟨by omega, ?_, ?_, ?_⟩ <;>
    rw [hgd] <;> simp [raster_point, unproject_point]

/-- Witness for C1 at the spec's worked 2x2 scenario, index 1
(pixel `(0,1)`, raw depth 2000, depth unit 1/1000). -/
theorem C1_raster_position_witness :
    ex_depth.height * ex_depth.width ≤ 4 ∧ 1 < ex_depth.height * ex_depth.width ∧
      (1 < (hdu_unproject ex_h ex_depth 4).length ∧
        ((hdu_unproject ex_h ex_depth 4).getD 1 default).z
            = (depth_sample ex_depth (1 / ex_depth.width) (1 % ex_depth.width) : ℚ)
                * ex_h.depth_unit ∧
        ((hdu_unproject ex_h ex_depth 4).getD 1 default).x
            = (depth_sample ex_depth (1 / ex_depth.width) (1 % ex_depth.width) : ℚ)
                * ex_h.depth_unit
                * (((1 % ex_depth.width : ℕ) : ℚ) - ex_h.ppx) / ex_h.fx ∧
        ((hdu_unproject ex_h ex_depth 4).getD 1 default).y
            = -((depth_sample ex_depth (1 / ex_depth.width) (1 % ex_depth.width) : ℚ)
                * ex_h.depth_unit)
                * (((1 / ex_depth.width : ℕ) : ℚ) - ex_h.ppy) / ex_h.fy) :=
  ⟨by decide, by decide,
    C1_raster_position ex_h ex_depth 4 1 (by decide) (by decide)⟩

/-- Claim C3: the final `used` never exceeds the capacity `pc->size` (the
output list never grows past it), and when `width * height ≤ capacity`,
`used` equals `width * height` exactly. -/
theorem C3_used_within_capacity (h : hdu) (depth : hdu_depth) (n : ℕ) :
    (hdu_unproject h depth n).length ≤ n ∧
      (depth.width * depth.height ≤ n →
        (hdu_unproject h depth n).length = depth.width * depth.height) := by
  have hlen := hdu_unproject_length h depth n
  have hcomm : depth.width * depth.height = depth.height * depth.width :=
    Nat.mul_comm _ _
  exact ⟨by omega, fun hle => by omega⟩

/-- Witness for C3 at the worked 2x2 scenario with capacity 4. -/
theorem C3_used_within_capacity_witness :
    ex_depth.width * ex_depth.height ≤ 4 ∧
      (hdu_unproject ex_h ex_depth 4).length = ex_depth.width * ex_depth.height :=
  ⟨by decide, (C3_used_within_capacity ex_h ex_depth 4).2 (by decide)⟩

/-- Claim C4: once the number of written points reaches the capacity, no
further point is emitted for the remainder of the entire scan — the output
is the raster-ordered point list truncated at the capacity; in particular,
for the 2x2 depth map with capacity 2, exactly the two first-row pixels
`(0,0)` and `(0,1)` are emitted and nothing from row 1. -/
theorem C4_early_termination_whole_scan :
    (∀ (h : hdu) (depth : hdu_depth) (n : ℕ),
        hdu_unproject h depth n
          = ((List.range (depth.height * depth.width)).map
              (raster_point h depth)).take n) ∧
      hdu_unproject ex_h ex_depth 2
        = [unproject_point ex_h ex_depth 0 0, unproject_point ex_h ex_depth 0 1] ∧
      (hdu_unproject ex_h ex_depth 2).length = 2 :=
  ⟨hdu_unproject_eq, rfl, rfl⟩

/-- Claim C5: no depth-range culling — every visited pixel emits exactly one
point whatever its sample value (`used` is `min (height*width) capacity`
independently of the data), and a pixel with raw depth 0 still yields the
point `(0, 0, 0)` on the optical axis rather than being skipped. -/
theorem C5_no_depth_culling (h : hdu) (depth : hdu_depth) (n : ℕ) :
    (hdu_unproject h depth n).length = min (depth.height * depth.width) n ∧
      ∀ k, k < min (depth.height * depth.width) n →
        (hdu_unproject h depth n).getD k default
            = unproject_point h depth (k / depth.width) (k % depth.width) ∧
          (depth_sample depth (k / depth.width) (k % depth.width) = 0 →
            ((hdu_unproject h depth n).getD k default).x = 0 ∧
              ((hdu_unproject h depth n).getD k default).y = 0 ∧
              ((hdu_unproject h depth n).getD k default).z = 0) := by
  refine ⟨hdu_unproject_length h depth n, fun k hk => ?_⟩
  have hgd := hdu_unproject_getD h depth n k hk
  refine ⟨hgd, fun hzero => ?_⟩
  rw [hgd]
  unfold raster_point
  simp [unproject_point, hzero]

/-- Witness for C5: the all-zero 2x2 depth map, pixel `(0,0)`. -/
theorem C5_no_depth_culling_witness :
    0 < min (ex_depth0.height * ex_depth0.width) 4 ∧
      depth_sample ex_depth0 (0 / ex_depth0.width) (0 % ex_depth0.width) = 0 ∧
      (((hdu_unproject ex_h ex_depth0 4).getD 0 default).x = 0 ∧
        ((hdu_unproject ex_h ex_depth0 4).getD 0 default).y = 0 ∧
        ((hdu_unproject ex_h ex_depth0 4).getD 0 default).z = 0) :=
  ⟨by decide, by decide,
    ((C5_no_depth_culling ex_h ex_depth0 4).2 0 (by decide)).2 (by decide)⟩

/-- Claim C6: when a color buffer is present, every emitted point's 32-bit
color word equals `(255 << 24) | (B << 16) | (G << 8) | R`; as a
little-endian word its bytes from least to most significant are
`(R, G, B, 255)`, so the alpha byte is always 255. -/
theorem C6_color_word_rgba (h : hdu) (depth : hdu_depth) (buf : ℕ → ℕ) (n k : ℕ)
    (hbuf : depth.colors = some buf)
    (hk : k < (hdu_unproject h depth n).length) :
    ((hdu_unproject h depth n).getD k default).color
        = (0xFF : ℕ) <<< 24
            ||| pixel_B depth buf (k / depth.width) (k % depth.width) <<< 16
            ||| pixel_G depth buf (k / depth.width) (k % depth.width) <<< 8
            ||| pixel_R depth buf (k / depth.width) (k % depth.width) ∧
      ((hdu_unproject h depth n).getD k default).color % 256
          = pixel_R depth buf (k / depth.width) (k % depth.width) ∧
      ((hdu_unproject h depth n).getD k default).color / 256 % 256
          = pixel_G depth buf (k / depth.width) (k % depth.width) ∧
      ((hdu_unproject h depth n).getD k default).color / 65536 % 256
          = pixel_B depth buf (k / depth.width) (k % depth.width) ∧
      ((hdu_unproject h depth n).getD k default).color / 16777216 = 255 := by
  rw [hdu_unproject_length] at hk
  rw [hdu_unproject_getD h depth n k hk]
  unfold raster_point
  have hcol : (unproject_point h depth (k / depth.width) (k % depth.width)).color
      = pack_color depth buf (k / depth.width) (k % depth.width) := by
    simp [unproject_point, hbuf]
  rw [hcol]
  have hR := pixel_R_lt depth buf (k / depth.width) (k % depth.width)
  have hG := pixel_G_lt depth buf (k / depth.width) (k % depth.width)
  have hB := pixel_B_lt depth buf (k / depth.width) (k % depth.width)
  have hEq := pack_color_eq depth buf (k / depth.width) (k % depth.width)
  refine ⟨?_, ?_, ?_, ?_, ?_⟩
  · unfold pack_color
    rw [and_255_eq hR]
  · rw [hEq]; omega
  · rw [hEq]; omega
  · rw [hEq]; omega
  · rw [hEq]; omega

/-- Witness for C6 at the 2x2 colored frame, output index 0. -/
theorem C6_color_word_rgba_witness :
    ex_cdepth.colors = some ex_cbuf ∧
      0 < (hdu_unproject ex_h ex_cdepth 4).length ∧
      (((hdu_unproject ex_h ex_cdepth 4).getD 0 default).color
          = (0xFF : ℕ) <<< 24
              ||| pixel_B ex_cdepth ex_cbuf (0 / ex_cdepth.width) (0 % ex_cdepth.width) <<< 16
              ||| pixel_G ex_cdepth ex_cbuf (0 / ex_cdepth.width) (0 % ex_cdepth.width) <<< 8
              ||| pixel_R ex_cdepth ex_cbuf (0 / ex_cdepth.width) (0 % ex_cdepth.width) ∧
        ((hdu_unproject ex_h ex_cdepth 4).getD 0 default).color % 256
            = pixel_R ex_cdepth ex_cbuf (0 / ex_cdepth.width) (0 % ex_cdepth.width) ∧
        ((hdu_unproject ex_h ex_cdepth 4).getD 0 default).color / 256 % 256
            = pixel_G ex_cdepth ex_cbuf (0 / ex_cdepth.width) (0 % ex_cdepth.width) ∧
        ((hdu_unproject ex_h ex_cdepth 4).getD 0 default).color / 65536 % 256
            = pixel_B ex_cdepth ex_cbuf (0 / ex_cdepth.width) (0 % ex_cdepth.width) ∧
        ((hdu_unproject ex_h ex_cdepth 4).getD 0 default).color / 16777216 = 255) :=
  ⟨rfl, by decide, C6_color_word_rgba ex_h ex_cdepth ex_cbuf 4 0 rfl (by decide)⟩

/-- Counterexample to claim C7 as stated: for Y = 16 and V = 255 the computed
R channel is 203, already inside the byte range, not a clamp to 255. -/
theorem C7_example_not_clamped : YUV2R 16 128 255 = 203 ∧ YUV2R 16 128 255 ≠ 255 := by
  decide

/-- Claim C7 (amended): for every input to the YUV-to-RGB conversion, each
computed channel value below 0 is clamped to 0 and each value above 255 is
clamped to 255, with in-range values passed through unchanged (no 8-bit
wrap-around); for Y = 16, V = 255 the computed R value is 203 (in range, not
clamped), while for example Y = 235, V = 255 does clamp R to 255. -/
theorem C7_saturation (x : ℤ) :
    ((x < 0 → CLIP x = 0) ∧ (255 < x → CLIP x = 255) ∧
        (0 ≤ x → x ≤ 255 → CLIP x = x)) ∧
      (∀ y u v : ℤ,
        (0 ≤ YUV2R y u v ∧ YUV2R y u v ≤ 255) ∧
          (0 ≤ YUV2G y u v ∧ YUV2G y u v ≤ 255) ∧
          (0 ≤ YUV2B y u v ∧ YUV2B y u v ≤ 255)) ∧
      YUV2R 16 128 255 = 203 ∧ YUV2R 235 128 255 = 255 := by
  refine ⟨⟨fun hx => ?_, fun hx => ?_, fun hx0 hx255 => ?_⟩,
    fun y u v => ⟨CLIP_range _, CLIP_range _, CLIP_range _⟩, by decide, by decide⟩
  all_goals unfold CLIP
  all_goals split_ifs <;> omega

/-- Witness for C7: a below-range value clamps to 0 and an above-range value
clamps to 255. -/
theorem C7_saturation_witness :
    ((-74 : ℤ) < 0 ∧ CLIP (-74) = 0) ∧ ((255 : ℤ) < 458 ∧ CLIP 458 = 255) :=
  ⟨⟨by decide, (C7_saturation (-74)).1.1 (by decide)⟩,
    ⟨by decide, (C7_saturation 458).1.2.1 (by decide)⟩⟩

/-- Claim C8: with no color buffer, every emitted point's color is the fixed
opaque white default `0xFFFFFFFF`, independent of position and depth. -/
theorem C8_no_color_default_white (h : hdu) (depth : hdu_depth) (n k : ℕ)
    (hnone : depth.colors = none)
    (hk : k < (hdu_unproject h depth n).length) :
    ((hdu_unproject h depth n).getD k default).color = 0xFFFFFFFF := by
  rw [hdu_unproject_length] at hk
  rw [hdu_unproject_getD h depth n k hk]
  unfold raster_point
  simp [unproject_point, hnone, default_color]

/-- Witness for C8 at the uncolored 2x2 scenario frame, output index 2. -/
theorem C8_no_color_default_white_witness :
    ex_depth.colors = none ∧ 2 < (hdu_unproject ex_h ex_depth 4).length ∧
      ((hdu_unproject ex_h ex_depth 4).getD 2 default).color = 0xFFFFFFFF :=
  ⟨rfl, by decide, C8_no_color_default_white ex_h ex_depth 4 2 rfl (by decide)⟩

/-- Claim C9: construction derives `min_depth = min_margin` and
`max_depth = 0xFFC0 * depth_unit - max_margin`, where `0xFFC0 = 2^16 - 2^6`
is the largest 16-bit raw sample whose low 6 bits are padding.  The embedding
is pure — `hdu_unproject` takes the `hdu` as a read-only value, mirroring the
`const struct hdu *` parameter — so no later operation can mutate them. -/
theorem C9_derived_depth_bounds (c : hdu_config) :
    (hdu_init c).min_depth = c.min_margin ∧
      (hdu_init c).max_depth = (0xFFC0 : ℚ) * c.depth_unit - c.max_margin ∧
      P010LE_MAX = 2 ^ 16 - 2 ^ 6 := by
  refine ⟨rfl, ?_, by decide⟩
  show (P010LE_MAX : ℚ) * c.depth_unit - c.max_margin
      = (0xFFC0 : ℚ) * c.depth_unit - c.max_margin
  norm_num [P010LE_MAX]

/-- Claim C10: margin noninterference — two unprojectors built from configs
that agree on principal point, focal lengths and depth unit (the margins may
differ) produce identical point lists, hence identical positions, colors and
`used`, on every frame and capacity: the transform never reads
`min_depth`/`max_depth`. -/
theorem C10_margin_noninterference (c1 c2 : hdu_config)
    (e1 : c1.ppx = c2.ppx) (e2 : c1.ppy = c2.ppy) (e3 : c1.fx = c2.fx)
    (e4 : c1.fy = c2.fy) (e5 : c1.depth_unit = c2.depth_unit)
    (depth : hdu_depth) (n : ℕ) :
    hdu_unproject (hdu_init c1) depth n = hdu_unproject (hdu_init c2) depth n ∧
      (hdu_unproject (hdu_init c1) depth n).length
        = (hdu_unproject (hdu_init c2) depth n).length := by
  have hpt : ∀ r c, unproject_point (hdu_init c1) depth r c
      = unproject_point (hdu_init c2) depth r c := by
    intro r c
    simp [unproject_point, hdu_init, e1, e2, e3, e4, e5]
  have hmain : hdu_unproject (hdu_init c1) depth n
      = hdu_unproject (hdu_init c2) depth n := by
    rw [hdu_unproject_eq, hdu_unproject_eq]
    congr 1
    apply List.map_congr_left
    intro k _
    unfold raster_point
    exact hpt _ _
  exact ⟨hmain, by rw [hmain]⟩

/-- Witness for C10: the scenario calibration with margins `(0,0)` versus
margins `(5,7)` yields the same output on the 2x2 frame. -/
theorem C10_margin_noninterference_witness :
    ex_config.ppx = ex_config2.ppx ∧ ex_config.ppy = ex_config2.ppy ∧
      ex_config.fx = ex_config2.fx ∧ ex_config.fy = ex_config2.fy ∧
      ex_config.depth_unit = ex_config2.depth_unit ∧
      hdu_unproject (hdu_init ex_config) ex_depth 4
        = hdu_unproject (hdu_init ex_config2) ex_depth 4 :=
  ⟨rfl, rfl, rfl, rfl, rfl,
    (C10_margin_noninterference ex_config ex_config2 rfl rfl rfl rfl rfl
      ex_depth 4).1⟩

/-- Claim C2 divergence (code bug): on the colored 2x2 frame whose UV pair
has low byte 0 and high byte 255, the code's emitted R byte is 0 because
`hdu_unproject` passes `UV >> 8` (the high byte) as the U argument and
`UV & 0xFF` (the low byte) as the V argument of the BT.601 macros, whereas
the claim's split — U from the low byte, V from the high byte, as in NV12 —
yields R = 255 for the same pixel. -/
theorem C2_uv_swap_divergence :
    ((hdu_unproject ex_h ex_cdepth 4).getD 0 default).color % 256 = 0 ∧
      pixel_R ex_cdepth ex_cbuf 0 0 = 0 ∧
      color_UV ex_cdepth ex_cbuf 0 0 &&& 0xFF = 0 ∧
      color_UV ex_cdepth ex_cbuf 0 0 >>> 8 = 255 ∧
      YUV2R 128 0 255 = 255 := by
  decide

end HDU
